import Mathlib

/-!
Verification of the aisuite tool-calling core against its specification.

The development shallowly embeds, in Lean 4:
  * the MCP bridge client of `aisuite/mcp/client.py` together with the tool
    wrapper of `aisuite/mcp/tool_wrapper.py` (both translated from the source
    files themselves), and
  * the components whose implementation files are absent from the source
    snapshot (the HTTP transport variant of the bridge, the tool manager of
    `aisuite/utils/tools.py`, and the completion orchestrator of
    `aisuite/client.py`); these are modelled from the specification text, each
    such definition carries a doc comment starting with `Modelled from the
    spec:`.

All definitions are executable so that every theorem can be exercised on
concrete inputs.
-/

namespace Aisuite

/-! ## MCP tool schemas and wrappers (from `aisuite/mcp/tool_wrapper.py`) -/

/-- A raw MCP tool schema, as cached by the client after `tools/list`.
In the Python source it is a dict with keys `name`, `description` and
`inputSchema`; the input schema is kept abstract as a tag because the client
code only ever forwards it. -/
structure ToolSchema where
  name : String
  description : String
  inputSchema : String
  deriving Repr, DecidableEq

/-- Embedding of `MCPToolWrapper`: the wrapper stores the client-independent
data set in `MCPToolWrapper.__init__` — `tool_name`, the schema, and the
`__name__` attribute (field `pyName` here) that the aisuite tool registry
inspects. -/
structure MCPToolWrapper where
  tool_name : String
  schema : ToolSchema
  pyName : String
  deriving Repr, DecidableEq

/-- Embedding of `create_mcp_tool_wrapper` composed with
`MCPToolWrapper.__init__`: the constructor sets `self.__name__ = tool_name`. -/
def create_mcp_tool_wrapper (tool_name : String) (tool_schema : ToolSchema) :
    MCPToolWrapper :=
  { tool_name := tool_name, schema := tool_schema, pyName := tool_name }

/-! ## The stdio MCP client (from `aisuite/mcp/client.py`) -/

/-- Observable state of an `MCPClient` instance: `_tools_cache` (`none`
before a successful connect) and whether `_session` is set.  The transport
handles (`_read`, `_write`, `_event_loop`) carry no further observable
state for the claims under study. -/
structure MCPClient where
  tools_cache : Option (List ToolSchema)
  session_set : Bool
  deriving Repr, DecidableEq

/-- Errors surfaced by the client: `RuntimeError("Not connected to MCP
server")` is the only one raised by the cache-reading paths. -/
inductive ClientErr where
  | notConnected
  deriving Repr, DecidableEq

/-- Embedding of `MCPClient.list_tools`: raises when `_tools_cache is None`,
otherwise returns the cached catalog. -/
def MCPClient.list_tools (c : MCPClient) : Except ClientErr (List ToolSchema) :=
  match c.tools_cache with
  | none => .error .notConnected
  | some cache => .ok cache

/-- Embedding of `MCPClient.get_callable_tools`: wraps every cached tool,
passing `tool["name"]` as the wrapper name, in catalog order. -/
def MCPClient.get_callable_tools (c : MCPClient) :
    Except ClientErr (List MCPToolWrapper) :=
  match c.list_tools with
  | .error e => .error e
  | .ok tools => .ok (tools.map (fun t => create_mcp_tool_wrapper t.name t))

/-- Embedding of `MCPClient.get_tool`: scans the catalog in order and wraps
the first tool whose `name` matches, returning `None` when nothing matches. -/
def MCPClient.get_tool (c : MCPClient) (tool_name : String) :
    Except ClientErr (Option MCPToolWrapper) :=
  match c.list_tools with
  | .error e => .error e
  | .ok tools =>
    match tools.find? (fun t => t.name == tool_name) with
    | some t => .ok (some (create_mcp_tool_wrapper tool_name t))
    | none => .ok none

/-! ## Result-content extraction (from `MCPClient._async_call_tool`) -/

/-- One item of an MCP result content list.  `text` and `data` are `some`
exactly when the Python object has that attribute (`hasattr`); `strForm`
is the `str()` form of the item. -/
structure ContentItem where
  text : Option String
  data : Option String
  strForm : String
  deriving Repr, DecidableEq

/-- The value of the `content` attribute of a result: either a Python list of
content items, or some non-list value (kept abstract as a tag). -/
inductive ContentField where
  | clist : List ContentItem → ContentField
  | cother : String → ContentField
  deriving Repr, DecidableEq

/-- A `tools/call` result envelope: `content = none` models an object with
no `content` attribute; `strForm` is `str(result)`. -/
structure CallResult where
  content : Option ContentField
  strForm : String
  deriving Repr, DecidableEq

/-- What `_async_call_tool` returns after extraction: either a string (from
`text`, `data`, `str(item)` or `str(result)`), or the raw `result.content`
value returned unchanged. -/
inductive CallReturn where
  | rstr : String → CallReturn
  | rcontent : ContentField → CallReturn
  deriving Repr, DecidableEq

/-- Embedding of the extraction logic at the end of
`MCPClient._async_call_tool`:

  * `content` attribute present and a non-empty list: return the first
    `text` of the item if it has one, else its `data`, else `str(item)`;
  * `content` attribute present otherwise (empty list or non-list): return
    `result.content` itself;
  * no `content` attribute: return `str(result)`. -/
def extractContent (r : CallResult) : CallReturn :=
  match r.content with
  | some (.clist (item :: _)) =>
    match item.text with
    | some t => .rstr t
    | none =>
      match item.data with
      | some d => .rstr d
      | none => .rstr item.strForm
  | some (.clist []) => .rcontent (.clist [])
  | some (.cother v) => .rcontent (.cother v)
  | none => .rstr r.strForm

/-! ## `MCPClient.close` -/

/-- Observable release actions taken while closing. -/
inductive CloseEvent where
  | sessionAexit
  deriving Repr, DecidableEq

/-- Embedding of `MCPClient.close` / `MCPClient._async_close`: when
`_session is not None` the coroutine `self._session.__aexit__(None, None,
None)` is awaited (event `sessionAexit`); nothing else happens and — note —
`_session` is never set back to `None`, so the state is returned
unchanged. -/
def MCPClient.close (c : MCPClient) : MCPClient × List CloseEvent :=
  if c.session_set then (c, [.sessionAexit]) else (c, [])

/-! ## Tool manager (Schema Generator and Registry)

The implementation file `aisuite/utils/tools.py` is absent from the source
snapshot — only its test suite `tests/utils/test_tool_manager.py` is present —
so the component is modelled from the specification (§4.1, §4.2). -/

/-- JSON-like argument and result values.  Only the scalar shapes exercised
by the claims are modelled; array and object values never occur in them. -/
inductive JsonVal where
  | jstr : String → JsonVal
  | jint : Int → JsonVal
  | jbool : Bool → JsonVal
  | jnull : JsonVal
  deriving Repr, DecidableEq

/-- Python-side type annotations as the schema generator distinguishes them:
the supported primitives, homogeneous sequences, enumerations (carrying their
member string values), and an unsupported/unrecognized type carrying an
opaque tag. -/
inductive PyType where
  | pstr : PyType
  | pint : PyType
  | pfloat : PyType
  | pbool : PyType
  | plist : PyType → PyType
  | penum : List String → PyType
  | punsupported : String → PyType
  deriving Repr, DecidableEq

/-- JSON-Schema types produced by the generator. -/
inductive JType where
  | jstring : JType
  | jinteger : JType
  | jnumber : JType
  | jboolean : JType
  | jarray : JType → JType
  deriving Repr, DecidableEq

/-- Modelled from the spec: the type mapping of §4.1 — `string→"string"`,
`int→"integer"`, `float→"number"`, `bool→"boolean"`, sequences to `"array"`
with recursively derived items, enumerations to `"string"`, and any
unrecognized type to `"string"` (safe fallback). -/
def mapPyType : PyType → JType
  | .pstr => .jstring
  | .pint => .jinteger
  | .pfloat => .jnumber
  | .pbool => .jboolean
  | .plist t => .jarray (mapPyType t)
  | .penum _ => .jstring
  | .punsupported _ => .jstring

/-- The enum member values contributed by an annotation, when any. -/
def enumOf : PyType → Option (List String)
  | .penum vs => some vs
  | _ => none

/-- A declared parameter of a Python callable: its name, its type annotation
(`none` when the parameter carries no annotation), its default value when one
is declared, and its description. -/
structure ParamDecl where
  name : String
  annot : Option PyType
  dflt : Option JsonVal
  description : String
  deriving Repr, DecidableEq

/-- A Python callable as the schema generator inspects it: name, docstring
and parameters in declaration order. -/
structure CallableDecl where
  name : String
  doc : String
  params : List ParamDecl
  deriving Repr, DecidableEq

/-- Registration-time failures of the schema generator. -/
inductive SchemaErr where
  | missingAnnot : String → String → SchemaErr
  deriving Repr, DecidableEq

/-- One property of a generated parameter schema. -/
structure PropSpec where
  jtype : JType
  description : String
  dflt : Option JsonVal
  enumVals : Option (List String)
  deriving Repr, DecidableEq

/-- A generated tool specification: name, description, ordered properties
and the ordered required-parameter list. -/
structure ToolSpec where
  name : String
  description : String
  properties : List (String × PropSpec)
  required : List String
  deriving Repr, DecidableEq

/-- Modelled from the spec: the property generated for a single annotated
parameter — type via the §4.1 mapping, description as given (empty when
absent), `default` present iff the parameter declares one, `enum` present
iff the annotation is an enumeration. -/
def propertyFor (p : ParamDecl) : PropSpec :=
  let t := p.annot.getD (.punsupported "unannotated")
  { jtype := mapPyType t
    description := p.description
    dflt := p.dflt
    enumVals := enumOf t }

/-- Modelled from the spec: `generate(callable) -> ToolSpec` of §4.1.  Every
parameter must carry a type annotation; the first parameter lacking one makes
generation fail with a missing-annotation error naming the callable and the
parameter.  Otherwise the spec lists one property per parameter in
declaration order, and `required` collects, in order, the parameters without
a default value. -/
def generate (c : CallableDecl) : Except SchemaErr ToolSpec :=
  match c.params.find? (fun p => p.annot.isNone) with
  | some p => .error (.missingAnnot c.name p.name)
  | none =>
    .ok
      { name := c.name
        description := c.doc
        properties := c.params.map (fun p => (p.name, propertyFor p))
        required := (c.params.filter (fun p => p.dflt.isNone)).map ParamDecl.name }

/-! ### Argument validation and tool execution (§4.2) -/

/-- One field of a structured parameter model attached to a tool. -/
structure FieldSpec where
  name : String
  ftype : JType
  required : Bool
  deriving Repr, DecidableEq

/-- A structured parameter model (the pydantic model of the source). -/
structure ParamModel where
  fields : List FieldSpec
  deriving Repr, DecidableEq

/-- Does a JSON value inhabit a JSON-Schema type?  Integers are accepted for
`"number"` as well. -/
def typeMatches : JType → JsonVal → Bool
  | .jstring, .jstr _ => true
  | .jinteger, .jint _ => true
  | .jnumber, .jint _ => true
  | .jboolean, .jbool _ => true
  | _, _ => false

/-- Modelled from the spec: validation of an argument object against a
structured parameter model — a field is offending when it is required but
missing, or present with a value of the wrong type.  Returns the offending
field names in model order. -/
def validateArgs (m : ParamModel) (args : List (String × JsonVal)) :
    List String :=
  (m.fields.filter (fun f =>
    match args.find? (fun a => a.1 == f.name) with
    | none => f.required
    | some a => !typeMatches f.ftype a.2)).map FieldSpec.name

/-- The `arguments` of a tool-call request: a native JSON object, a
JSON-encoded string that decodes to an object, or a malformed JSON string. -/
inductive ArgPayload where
  | obj : List (String × JsonVal) → ArgPayload
  | encodedObj : List (String × JsonVal) → ArgPayload
  | malformedStr : String → ArgPayload
  deriving Repr, DecidableEq

/-- A tool-call request produced by a provider response. -/
structure ToolCallRequest where
  id : String
  name : String
  arguments : ArgPayload
  deriving Repr, DecidableEq

/-- The recoverable tool-execution failures of §4.2/§7. -/
inductive ToolError where
  | toolNotFound : String → ToolError
  | argumentError : String → List String → ToolError
  | executionError : String → String → ToolError
  deriving Repr, DecidableEq

/-- Comma-separated rendering of a list of field names. -/
def joinNames : List String → String
  | [] => ""
  | [f] => f
  | f :: rest => f ++ ", " ++ joinNames rest

/-- Modelled from the spec: the human-readable message of a tool error; an
argument error names the tool and the offending fields (the test suite pins
the leading `Error in tool ... parameters` shape). -/
def errMessage : ToolError → String
  | .toolNotFound t => "Tool " ++ t ++ " not found."
  | .argumentError t fs =>
    "Error in tool " ++ t ++ " parameters: invalid or missing fields: " ++
      joinNames fs
  | .executionError t m => "Error executing tool " ++ t ++ ": " ++ m

/-- Conversation roles. -/
inductive Role where
  | system
  | user
  | assistant
  | tool
  deriving Repr, DecidableEq

/-- A conversation message; `tool_call_id` is set on tool-role results. -/
structure Message where
  role : Role
  content : String
  tool_call_id : Option String
  deriving Repr, DecidableEq

/-- A crude JSON rendering, standing in for `str(result)` on tool results. -/
def jsonToString : JsonVal → String
  | .jstr s => s
  | .jint i => toString i
  | .jbool b => toString b
  | .jnull => "None"

/-- A tool registered in the registry: its name, its callable (which may
itself fail with an exception message), and the optional structured
parameter model. -/
structure RegisteredTool where
  name : String
  impl : List (String × JsonVal) → Except String JsonVal
  paramModel : Option ParamModel

/-- Modelled from the spec: argument parsing of §4.2 — a native object or a
JSON-encoded string are accepted; a malformed string is an argument error. -/
def parseArgs (toolName : String) (a : ArgPayload) :
    Except ToolError (List (String × JsonVal)) :=
  match a with
  | .obj o => .ok o
  | .encodedObj o => .ok o
  | .malformedStr _ => .error (.argumentError toolName ["arguments"])

/-- Modelled from the spec: `execute(ToolCallRequest)` of §4.2 — look the
tool up by name (`ToolNotFoundError` when absent), parse the arguments,
validate them against the attached parameter model when one is present
(`ToolArgumentError` naming the tool and the offending fields on failure),
invoke the callable (its own exception surfaces as `ToolExecutionError`),
and on success return the raw result paired with the ready-to-append
tool-role message. -/
def executeTool (reg : List RegisteredTool) (call : ToolCallRequest) :
    Except ToolError (JsonVal × Message) :=
  match reg.find? (fun t => t.name == call.name) with
  | none => .error (.toolNotFound call.name)
  | some rt =>
    match parseArgs call.name call.arguments with
    | .error e => .error e
    | .ok args =>
      let issues :=
        match rt.paramModel with
        | some m => validateArgs m args
        | none => []
      if issues.isEmpty then
        match rt.impl args with
        | .error msg => .error (.executionError call.name msg)
        | .ok v =>
          .ok (v, { role := .tool, content := jsonToString v
                    tool_call_id := some call.id })
      else
        .error (.argumentError call.name issues)

/-! ## Completion Orchestrator

The implementation file `aisuite/client.py` is absent from the source
snapshot; the multi-turn loop is modelled from the specification (§4.4, §7
and the turn-cap property of §8). -/

/-- A single-turn provider response: optional text content and the list of
requested tool calls (empty on a terminal "stop" response). -/
structure ProviderResponse where
  content : Option String
  toolCalls : List ToolCallRequest
  deriving Repr, DecidableEq

/-- Modelled from the spec: the per-call handling of §4.4 step 4 together
with the recoverability rule of §7 — a requested call is executed through
the registry; a successful execution appends the tool-role result message,
and a recoverable tool error is converted into a tool-role message carrying
the error string (never an abort), correlated by the request id. -/
def runToolCall (reg : List RegisteredTool) (msgs : List Message)
    (call : ToolCallRequest) : List Message :=
  match executeTool reg call with
  | .ok (_, m) => msgs ++ [m]
  | .error e =>
    msgs ++ [{ role := .tool, content := errMessage e
               tool_call_id := some call.id }]

/-- The assistant message echoing a provider response into the history. -/
def assistantMsg (resp : ProviderResponse) : Message :=
  { role := .assistant, content := resp.content.getD "", tool_call_id := none }

/-- Outcome of the orchestration loop: the final provider response (`none`
only when the turn budget was zero, so no provider call was ever made), the
number of provider calls issued, the number of tool calls executed, and the
final message history. -/
structure OrchResult where
  response : Option ProviderResponse
  providerCalls : Nat
  toolExecs : Nat
  messages : List Message
  deriving Repr, DecidableEq

/-- Modelled from the spec: the orchestration loop of §4.4 with the turn cap
of §8 — each turn issues one provider call; the loop returns when the
response requests no tools, or when the incremented turn counter reaches
`max_turns` (returning the last response as-is, its requested tools left
unexecuted); otherwise the requested calls are executed in request order,
their result messages appended after the assistant message, and the loop
re-issues the provider call on the extended history.  The fuel argument is
the number of turns still available. -/
def toolLoop (provider : List Message → ProviderResponse)
    (reg : List RegisteredTool) : List Message → Nat → OrchResult
  | msgs, 0 => ⟨none, 0, 0, msgs⟩
  | msgs, n + 1 =>
    let resp := provider msgs
    if resp.toolCalls.isEmpty || n == 0 then
      ⟨some resp, 1, 0, msgs⟩
    else
      let msgs2 := resp.toolCalls.foldl (runToolCall reg)
        (msgs ++ [assistantMsg resp])
      let r := toolLoop provider reg msgs2 n
      ⟨r.response, r.providerCalls + 1, r.toolExecs + resp.toolCalls.length,
        r.messages⟩

/-! ## External Tool Bridge: construction validation, HTTP endpoint and the
`allowed_tools` filter

The HTTP-transport variant of `MCPClient` that the test-suites
`tests/mcp/test_http_transport.py` target (constructor accepting
`server_url`, `headers`, `timeout`, `allowed_tools`, plus `from_config` /
`get_tools_from_config`) is absent from the source snapshot — the
`aisuite/mcp/client.py` present there is the stdio-only variant, which never
imports `httpx`.  These parts are modelled from the specification (§4.3,
§6, §8). -/

/-- Construction-time configuration errors of the bridge. -/
inductive ConfigError where
  | mustProvideOne
  | cannotMix
  deriving Repr, DecidableEq

/-- Observable transport activity of a bridge session. -/
inductive BridgeEvent where
  | spawnSubprocess : String → BridgeEvent
  | stdioRequest : String → BridgeEvent
  | postRequest : String → String → BridgeEvent
  deriving Repr, DecidableEq

/-- Modelled from the spec: the construction constraint of §4.3 — exactly
one of subprocess command and server URL must be supplied; both, or neither,
is a configuration error. -/
def validateTransportConfig (command serverUrl : Option String) :
    Option ConfigError :=
  match command, serverUrl with
  | some _, some _ => some .cannotMix
  | none, none => some .mustProvideOne
  | _, _ => none

/-- Modelled from the spec: for the HTTP transport the server URL is used
exactly as given with only a single trailing slash stripped — no path
normalization, no versioned-path suffixing (§4.3, §8).  The trailing-slash
test and the strip operate on the character data of the URL. -/
def httpEndpoint (serverUrl : String) : String :=
  if serverUrl.data.getLast? = some '/' then { data := serverUrl.data.dropLast }
  else serverUrl

/-- Modelled from the spec: bridge construction — validation happens first
and a configuration error is raised before any I/O; with exactly one
transport selected, the connect sequence of §4.3 follows: open the
transport, send `initialize`, send `tools/list`.  Returns the configuration
error, when any, paired with the transport events performed. -/
def mcpClientInit (command serverUrl : Option String) :
    Option ConfigError × List BridgeEvent :=
  match validateTransportConfig command serverUrl with
  | some e => (some e, [])
  | none =>
    match command, serverUrl with
    | some cmd, _ =>
      (none, [.spawnSubprocess cmd, .stdioRequest "initialize",
              .stdioRequest "tools/list"])
    | none, some url =>
      (none, [.postRequest (httpEndpoint url) "initialize",
              .postRequest (httpEndpoint url) "tools/list"])
    | none, none => (some .mustProvideOne, [])

/-- Modelled from the spec: the HTTP request issued for a `tools/call`
during an active session — POSTed to the same fixed endpoint. -/
def httpCallToolEvent (serverUrl : String) : BridgeEvent :=
  .postRequest (httpEndpoint serverUrl) "tools/call"

/-- Modelled from the spec: the optional `allowed_tools` filter of §4.3 —
when supplied, only catalog entries whose name is in the filter are exposed
via `get_callable_tools` / `get_tools_from_config`; without it every
cataloged tool is wrapped, in catalog order. -/
def get_callable_tools_filtered (catalog : List ToolSchema)
    (allowedTools : Option (List String)) : List MCPToolWrapper :=
  match allowedTools with
  | none => catalog.map (fun t => create_mcp_tool_wrapper t.name t)
  | some allowed =>
    (catalog.filter (fun t => allowed.contains t.name)).map
      (fun t => create_mcp_tool_wrapper t.name t)

/-! ## Concrete fixtures used to exercise the theorems -/

/-- Predicate: `needle` occurs contiguously inside `hay`. -/
def containsStr (hay needle : String) : Prop :=
  ∃ s t, hay = s ++ needle ++ t

/-- The test fixture `missing_annotation_tool(location, unit="Celsius")` of
`tests/utils/test_tool_manager.py`: both parameters lack annotations. -/
def missing_annotation_tool : CallableDecl :=
  { name := "missing_annotation_tool"
    doc := "Tool function without type annotations."
    params :=
      [ { name := "location", annot := none, dflt := none, description := "" },
        { name := "unit", annot := none, dflt := some (JsonVal.jstr "Celsius")
          description := "" } ] }

/-- A provider stub that always requests one tool call. -/
def alwaysToolProvider : List Message → ProviderResponse := fun _ =>
  { content := none
    toolCalls := [{ id := "call_1", name := "get_time"
                    arguments := ArgPayload.obj [] }] }

/-- An `MCPClient` state after a successful connect. -/
def connectedClient : MCPClient :=
  { tools_cache := some [], session_set := true }

/-- The parameter model of the `get_current_temperature` test fixture. -/
def temperatureModel : ParamModel :=
  { fields :=
      [ { name := "location", ftype := JType.jstring, required := true },
        { name := "unit", ftype := JType.jstring, required := false } ] }

/-- The registered `get_current_temperature` tool of the test suite. -/
def temperatureTool : RegisteredTool :=
  { name := "get_current_temperature"
    impl := fun _ => .ok (.jstr "72")
    paramModel := some temperatureModel }

/-- The invalid call of `test_execute_tool_invalid_parameters`: `location`
is an integer where a string is required. -/
def invalidTemperatureCall : ToolCallRequest :=
  { id := "call_1", name := "get_current_temperature"
    arguments := ArgPayload.obj [("location", JsonVal.jint 123)] }

/-! ## Helper lemmas -/

theorem containsStr_append_left (a b f : String) (h : containsStr b f) :
    containsStr (a ++ b) f := by
  obtain ⟨s, t, rfl⟩ := h
  exact ⟨a ++ s, t, by simp [String.append_assoc]⟩

theorem joinNames_contains (fs : List String) (f : String) (hf : f ∈ fs) :
    containsStr (joinNames fs) f := by
  induction fs with
  | nil => cases hf
  | cons g rest ih =>
    rcases List.mem_cons.mp hf with h | h
    · subst h
      cases rest with
      | nil => exact ⟨"", "", by simp [joinNames]⟩
      | cons r rs =>
        exact ⟨"", ", " ++ joinNames (r :: rs),
          by simp [joinNames, String.append_assoc]⟩
    · cases rest with
      | nil => cases h
      | cons r rs =>
        obtain ⟨s, t, hst⟩ := ih h
        exact ⟨g ++ ", " ++ s, t,
          by simp [joinNames, hst, String.append_assoc]⟩

/-! ## Claim theorems -/

/-- C1: supplying both a subprocess command and a server URL, or neither,
makes `MCPClient` construction fail with a configuration error immediately,
with no subprocess spawned and no network I/O performed (the event list is
empty); supplying exactly one of them proceeds to the connect sequence
(open transport, `initialize`, `tools/list`). -/
theorem mcp_init_exactly_one_transport :
    (∀ cmd url : String,
      mcpClientInit (some cmd) (some url) = (some ConfigError.cannotMix, [])) ∧
    mcpClientInit none none = (some ConfigError.mustProvideOne, []) ∧
    (∀ cmd : String,
      mcpClientInit (some cmd) none =
        (none, [BridgeEvent.spawnSubprocess cmd,
                BridgeEvent.stdioRequest "initialize",
                BridgeEvent.stdioRequest "tools/list"])) ∧
    (∀ url : String,
      mcpClientInit none (some url) =
        (none, [BridgeEvent.postRequest (httpEndpoint url) "initialize",
                BridgeEvent.postRequest (httpEndpoint url) "tools/list"])) := by
  refine ⟨fun cmd url => rfl, rfl, fun cmd => rfl, fun url => rfl⟩

/-- C4 counterexample: a result whose `content` attribute is an empty list
has no structured content, yet `_async_call_tool` returns `result.content`
(the empty list) rather than the string form of the whole envelope. -/
theorem extract_content_counterexample :
    extractContent { content := some (ContentField.clist []), strForm := "ENVELOPE" } =
      CallReturn.rcontent (ContentField.clist []) ∧
    extractContent { content := some (ContentField.clist []), strForm := "ENVELOPE" } ≠
      CallReturn.rstr "ENVELOPE" := by
  exact ⟨rfl, by simp [extractContent]⟩

/-- C4 amended: with a non-empty content list the `text` of the first item, else
its `data`, else its string form is returned; with a `content` attribute
that is not a non-empty list the raw `content` value itself is returned;
only when the result has no `content` attribute is the string form of the
whole envelope returned. -/
theorem extract_content_amended (r : CallResult) :
    (∀ item rest, r.content = some (ContentField.clist (item :: rest)) →
      ((∃ t, item.text = some t ∧ extractContent r = CallReturn.rstr t) ∨
       (item.text = none ∧
         ∃ d, item.data = some d ∧ extractContent r = CallReturn.rstr d) ∨
       (item.text = none ∧ item.data = none ∧
         extractContent r = CallReturn.rstr item.strForm))) ∧
    (∀ c, r.content = some c →
      (∀ item rest, c ≠ ContentField.clist (item :: rest)) →
      extractContent r = CallReturn.rcontent c) ∧
    (r.content = none → extractContent r = CallReturn.rstr r.strForm) := by
  obtain ⟨content, strForm⟩ := r
  refine ⟨?_, ?_, ?_⟩
  · rintro item rest rfl
    cases ht : item.text with
    | some t => exact Or.inl ⟨t, rfl, by simp [extractContent, ht]⟩
    | none =>
      cases hd : item.data with
      | some d =>
        exact Or.inr (Or.inl ⟨rfl, d, rfl, by simp [extractContent, ht, hd]⟩)
      | none =>
        exact Or.inr (Or.inr ⟨rfl, rfl, by simp [extractContent, ht, hd]⟩)
  · rintro c rfl hne
    cases c with
    | clist items =>
      cases items with
      | nil => rfl
      | cons i rest => exact absurd rfl (hne i rest)
    | cother v => rfl
  · rintro rfl
    rfl

/-- C4 amended, exercised: a text item is extracted, and a non-list content
value is returned raw. -/
theorem extract_content_amended_witness :
    extractContent { content := none, strForm := "env" } =
      CallReturn.rstr "env" ∧
    extractContent { content := some (ContentField.cother "value"), strForm := "env" } =
      CallReturn.rcontent (ContentField.cother "value") := by
  constructor
  · exact (extract_content_amended { content := none, strForm := "env" }).2.2 rfl
  · exact (extract_content_amended
      { content := some (ContentField.cother "value"), strForm := "env" }).2.1
      (ContentField.cother "value") rfl (by simp)

/-- C5 counterexample: on a connected client the second `close()` is not a
no-op — because `close` never clears `_session`, the second call awaits
`session.__aexit__` again, releasing the session a second time. -/
theorem close_second_call_counterexample :
    ((connectedClient.close).1.close).2 = [CloseEvent.sessionAexit] ∧
    ((connectedClient.close).1.close).2 ≠ ([] : List CloseEvent) := by
  exact ⟨rfl, by simp [connectedClient, MCPClient.close]⟩

/-- C5 amended: `close()` never mutates the client state (in particular it
does not clear the session reference), it is a no-op on a never-connected
client, and on a connected client every call — the second included —
re-issues the session teardown. -/
theorem close_amended (c : MCPClient) :
    (c.close).1 = c ∧
    (c.session_set = false → c.close = (c, [])) ∧
    (c.session_set = true →
      (c.close).2 = [CloseEvent.sessionAexit] ∧
      ((c.close).1.close).2 = [CloseEvent.sessionAexit]) := by
  unfold MCPClient.close
  by_cases h : c.session_set <;> simp [h]

/-- C5 amended, exercised on a connected client. -/
theorem close_amended_witness :
    (connectedClient.close).2 = [CloseEvent.sessionAexit] ∧
    ((connectedClient.close).1.close).2 = [CloseEvent.sessionAexit] :=
  (close_amended connectedClient).2.2 rfl

/-- C9: on a connected client, `get_tool` returns `None` (without raising)
for a name matching no cataloged tool, and a callable wrapper for the first
matching tool otherwise, its `__name__` being the requested name. -/
theorem get_tool_lookup (cache : List ToolSchema) (sess : Bool) (nm : String) :
    ((∀ t ∈ cache, t.name ≠ nm) →
      MCPClient.get_tool { tools_cache := some cache, session_set := sess } nm =
        .ok none) ∧
    ((∃ t ∈ cache, t.name = nm) →
      ∃ t, cache.find? (fun t => t.name == nm) = some t ∧ t.name = nm ∧
        MCPClient.get_tool { tools_cache := some cache, session_set := sess } nm =
          .ok (some (create_mcp_tool_wrapper nm t)) ∧
        (create_mcp_tool_wrapper nm t).pyName = nm) := by
  constructor
  · intro h
    have hfind : cache.find? (fun t => t.name == nm) = none := by
      apply List.find?_eq_none.mpr
      intro t ht
      simp [h t ht]
    simp [MCPClient.get_tool, MCPClient.list_tools, hfind]
  · rintro ⟨t0, ht0, hname⟩
    have hsome : (cache.find? (fun t => t.name == nm)).isSome := by
      rw [List.find?_isSome]
      exact ⟨t0, ht0, by simp [hname]⟩
    obtain ⟨t, hfind⟩ := Option.isSome_iff_exists.mp hsome
    have hpred : t.name = nm := by simpa using List.find?_some hfind
    exact ⟨t, hfind, hpred,
      by simp [MCPClient.get_tool, MCPClient.list_tools, hfind], rfl⟩

/-- C9 exercised: a one-tool catalog, missing and present lookups. -/
theorem get_tool_lookup_witness :
    MCPClient.get_tool
      { tools_cache := some [{ name := "read_file", description := "r"
                               inputSchema := "s" }], session_set := true }
      "no_such_tool" = .ok none ∧
    ∃ t, MCPClient.get_tool
        { tools_cache := some [{ name := "read_file", description := "r"
                                 inputSchema := "s" }], session_set := true }
        "read_file" = .ok (some (create_mcp_tool_wrapper "read_file" t)) := by
  constructor
  · exact (get_tool_lookup _ true "no_such_tool").1 (by decide)
  · obtain ⟨t, _, _, h, _⟩ := (get_tool_lookup _ true "read_file").2
      ⟨{ name := "read_file", description := "r", inputSchema := "s" },
        List.mem_singleton_self _, rfl⟩
    exact ⟨t, h⟩

/-- C10: on a connected client, `get_callable_tools` returns exactly one
wrapper per cataloged tool, in catalog order, and the `__name__` of the i-th wrapper
equals the name of the i-th cataloged tool. -/
theorem get_callable_tools_order (cache : List ToolSchema) (sess : Bool) :
    ∃ ws, MCPClient.get_callable_tools
        { tools_cache := some cache, session_set := sess } = .ok ws ∧
      ws.length = cache.length ∧
      (∀ i : Nat, ws[i]? =
        (cache[i]?).map (fun t => create_mcp_tool_wrapper t.name t)) ∧
      (∀ i : Nat, (ws[i]?).map MCPToolWrapper.pyName =
        (cache[i]?).map ToolSchema.name) := by
  refine ⟨cache.map (fun t => create_mcp_tool_wrapper t.name t), ?_, by simp,
    fun i => by simp [List.getElem?_map], fun i => ?_⟩
  · rfl
  · cases h : cache[i]? <;>
      simp [List.getElem?_map, h, create_mcp_tool_wrapper]

/-- C2: the orchestration loop issues at most `max_turns` provider calls
and always terminates (it is a total function); with `max_turns = 1` and a
provider that always requests a tool call, it returns after exactly one
provider call, executing no tool and leaving the history untouched. -/
theorem orchestrator_turn_cap (provider : List Message → ProviderResponse)
    (reg : List RegisteredTool) (msgs : List Message)
    (halways : ∀ ms, (provider ms).toolCalls ≠ []) :
    toolLoop provider reg msgs 1 =
      { response := some (provider msgs), providerCalls := 1, toolExecs := 0
        messages := msgs } ∧
    (∃ r, (toolLoop provider reg msgs 1).response = some r ∧
      r.toolCalls ≠ []) ∧
    (∀ ms n, (toolLoop provider reg ms n).providerCalls ≤ n) := by
  refine ⟨?_, ?_, ?_⟩
  · simp [toolLoop]
  · exact ⟨provider msgs, by simp [toolLoop], halways msgs⟩
  · intro ms n
    induction n generalizing ms with
    | zero => simp [toolLoop]
    | succ k ih =>
      simp only [toolLoop]
      by_cases h : ((provider ms).toolCalls.isEmpty || (k == 0)) = true
      · simp [h]
      · simp only [h, if_false]
        exact Nat.succ_le_succ (ih _)

/-- C2 exercised with a provider stub that always requests a tool. -/
theorem orchestrator_turn_cap_witness :
    toolLoop alwaysToolProvider [] [] 1 =
      { response := some (alwaysToolProvider []), providerCalls := 1
        toolExecs := 0, messages := [] } ∧
    (toolLoop alwaysToolProvider [] [] 5).providerCalls ≤ 5 := by
  have h := orchestrator_turn_cap alwaysToolProvider [] []
    (fun ms => by simp [alwaysToolProvider])
  exact ⟨h.1, h.2.2 [] 5⟩

/-- C3: any callable with an unannotated parameter is rejected by schema
generation with a missing-annotation error and never yields a spec; in a
generated spec every parameter was annotated, and a parameter annotated
with an unsupported type gets the `"string"` fallback. -/
theorem generate_rejects_unannotated (c : CallableDecl) :
    ((∃ p ∈ c.params, p.annot = none) →
      ∃ pn, generate c = .error (SchemaErr.missingAnnot c.name pn) ∧
        ∀ spec, generate c ≠ .ok spec) ∧
    (∀ spec, generate c = .ok spec →
      (∀ p ∈ c.params, p.annot ≠ none) ∧
      (∀ p ∈ c.params, ∀ tag, p.annot = some (PyType.punsupported tag) →
        (p.name, propertyFor p) ∈ spec.properties ∧
        (propertyFor p).jtype = JType.jstring)) := by
  constructor
  · rintro ⟨p0, hp0, hnone⟩
    have hsome : (c.params.find? (fun p => p.annot.isNone)).isSome := by
      rw [List.find?_isSome]
      exact ⟨p0, hp0, by simp [hnone]⟩
    obtain ⟨q, hq⟩ := Option.isSome_iff_exists.mp hsome
    exact ⟨q.name, by simp [generate, hq], fun spec => by simp [generate, hq]⟩
  · intro spec hspec
    have hfind : c.params.find? (fun p => p.annot.isNone) = none := by
      cases hf : c.params.find? (fun p => p.annot.isNone) with
      | none => rfl
      | some q => simp [generate, hf] at hspec
    have hall := List.find?_eq_none.mp hfind
    have hspec2 : spec.properties =
        c.params.map (fun p => (p.name, propertyFor p)) := by
      simp [generate, hfind] at hspec
      rw [← hspec]
    constructor
    · intro p hp hcon
      exact hall p hp (by simp [hcon])
    · intro p hp tag htag
      refine ⟨?_, ?_⟩
      · rw [hspec2]
        exact List.mem_map_of_mem _ hp
      · simp [propertyFor, htag, mapPyType, enumOf]

/-- C3 exercised on the `missing_annotation_tool` test fixture. -/
theorem generate_rejects_unannotated_witness :
    ∃ pn, generate missing_annotation_tool =
      .error (SchemaErr.missingAnnot "missing_annotation_tool" pn) := by
  obtain ⟨pn, h1, h2⟩ :=
    (generate_rejects_unannotated missing_annotation_tool).1
      ⟨{ name := "location", annot := none, dflt := none, description := "" },
        by simp [missing_annotation_tool], rfl⟩
  exact ⟨pn, h1⟩

/-- C6: with `allowed_tools = [a]` and a catalog containing exactly one
tool named `a`, exactly one callable is exposed and its `__name__` is `a`;
without the filter every cataloged tool is exposed, in catalog order. -/
theorem allowed_tools_filter (catalog : List ToolSchema) (a : String)
    (hone : (catalog.filter (fun t => t.name == a)).length = 1) :
    (get_callable_tools_filtered catalog (some [a])).map
        MCPToolWrapper.pyName = [a] ∧
    get_callable_tools_filtered catalog none =
      catalog.map (fun t => create_mcp_tool_wrapper t.name t) := by
  refine ⟨?_, rfl⟩
  have hpred : ∀ x ∈ catalog, ([a].contains x.name) = (x.name == a) := by
    intro x hx
    simp only [List.contains_cons]
    simp
  have hdef : get_callable_tools_filtered catalog (some [a]) =
      (catalog.filter (fun t => [a].contains t.name)).map
        (fun t => create_mcp_tool_wrapper t.name t) := rfl
  rw [hdef, List.filter_congr hpred]
  obtain ⟨t, ht⟩ := List.length_eq_one.mp hone
  rw [ht]
  have htmem : t ∈ catalog.filter (fun t => t.name == a) := by
    rw [ht]; exact List.mem_singleton_self t
  have hname : t.name = a := by
    simpa using (List.mem_filter.mp htmem).2
  simp [create_mcp_tool_wrapper, hname]

/-- C6 exercised on the catalog `[toolA, toolB]` of §8. -/
theorem allowed_tools_filter_witness :
    (get_callable_tools_filtered
        [{ name := "toolA", description := "A", inputSchema := "" },
         { name := "toolB", description := "B", inputSchema := "" }]
        (some ["toolA"])).map MCPToolWrapper.pyName = ["toolA"] :=
  (allowed_tools_filter _ "toolA" (by rfl)).1

/-- C7: every JSON-RPC request of an HTTP-transport client — `initialize`
and `tools/list` at connect time, `tools/call` during the session — is
POSTed to exactly the configured server URL with at most a single trailing
slash stripped: a URL without a trailing slash is used unmodified, and one
with a trailing slash loses exactly its last character. -/
theorem http_requests_exact_url (url : String) :
    mcpClientInit none (some url) =
      (none, [BridgeEvent.postRequest (httpEndpoint url) "initialize",
              BridgeEvent.postRequest (httpEndpoint url) "tools/list"]) ∧
    httpCallToolEvent url =
      BridgeEvent.postRequest (httpEndpoint url) "tools/call" ∧
    (url.data.getLast? ≠ some '/' → httpEndpoint url = url) ∧
    (url.data.getLast? = some '/' →
      (httpEndpoint url).data = url.data.dropLast) := by
  refine ⟨rfl, rfl, fun h => by simp [httpEndpoint, h], fun h => by
    simp [httpEndpoint, h]⟩

/-- C7 exercised on the §8 endpoint example. -/
theorem http_requests_exact_url_witness :
    httpEndpoint "http://host:8000/mcp/v1/" = "http://host:8000/mcp/v1" ∧
    httpEndpoint "http://host:8000/mcp/v1" = "http://host:8000/mcp/v1" := by
  constructor
  · have h := (http_requests_exact_url "http://host:8000/mcp/v1/").2.2.2
      (by decide)
    exact String.ext (h.trans (by decide))
  · exact (http_requests_exact_url "http://host:8000/mcp/v1").2.2.1 (by decide)

/-- C8: executing a call whose arguments fail validation against the
attached parameter model fails with an argument error whose message
contains the tool name and every offending field name; the orchestrator
handling converts it into an appended tool-role error message (correlated
by the request id) instead of aborting. -/
theorem execute_tool_argument_error (reg : List RegisteredTool)
    (rt : RegisteredTool) (m : ParamModel) (call : ToolCallRequest)
    (args : List (String × JsonVal))
    (hfind : reg.find? (fun t => t.name == call.name) = some rt)
    (hargs : call.arguments = ArgPayload.obj args)
    (hm : rt.paramModel = some m)
    (hbad : validateArgs m args ≠ []) :
    executeTool reg call =
      .error (.argumentError call.name (validateArgs m args)) ∧
    containsStr
      (errMessage (.argumentError call.name (validateArgs m args)))
      call.name ∧
    (∀ f ∈ validateArgs m args,
      containsStr
        (errMessage (.argumentError call.name (validateArgs m args))) f) ∧
    (∀ msgs, runToolCall reg msgs call =
      msgs ++ [{ role := Role.tool
                 content := errMessage
                   (.argumentError call.name (validateArgs m args))
                 tool_call_id := some call.id }]) := by
  have hfalse : (validateArgs m args).isEmpty = false := by
    cases hv : validateArgs m args with
    | nil => exact absurd hv hbad
    | cons x l => rfl
  have hexec : executeTool reg call =
      .error (.argumentError call.name (validateArgs m args)) := by
    simp [executeTool, hfind, hargs, parseArgs, hm, hfalse]
  refine ⟨hexec, ?_, ?_, fun msgs => by simp [runToolCall, hexec]⟩
  · exact ⟨"Error in tool ",
      " parameters: invalid or missing fields: " ++
        joinNames (validateArgs m args),
      by simp [errMessage, String.append_assoc]⟩
  · intro f hf
    have h1 := containsStr_append_left
      ("Error in tool " ++ call.name ++
        " parameters: invalid or missing fields: ")
      (joinNames (validateArgs m args)) f
      (joinNames_contains _ f hf)
    simpa [errMessage, String.append_assoc] using h1

/-- C8 exercised on the invalid `get_current_temperature` call of the test
suite: `location` given as an integer. -/
theorem execute_tool_argument_error_witness :
    executeTool [temperatureTool] invalidTemperatureCall =
      .error (ToolError.argumentError "get_current_temperature" ["location"]) ∧
    runToolCall [temperatureTool] [] invalidTemperatureCall =
      [{ role := Role.tool
         content := errMessage
           (ToolError.argumentError "get_current_temperature" ["location"])
         tool_call_id := some "call_1" }] := by
  have h := execute_tool_argument_error [temperatureTool] temperatureTool
    temperatureModel invalidTemperatureCall
    [("location", JsonVal.jint 123)] rfl rfl rfl (by decide)
  exact ⟨h.1, by simpa using h.2.2.2 []⟩

end Aisuite
